import Mathlib

/-
Verification of the language-agnostic test executor in src/node_3/executor.py.

Strings are modelled as lists of Unicode code points (List Nat).  Python's
regular-expression substitutions used by the handlers are specialised to the
concrete patterns appearing in the source:

* re.sub(r'TAG\s*\n?', '', code)  where TAG is a literal code fence opener:
  since \s* is greedy and \n is itself whitespace, a match is the literal tag
  followed by the maximal run of whitespace after it.
* re.sub(r'```\s*$', '', code, flags=re.MULTILINE): a match at a position is
  the literal three backticks followed by a maximal-under-backtracking run of
  whitespace that ends at the end of the string, or just before a newline
  (the last newline inside the maximal whitespace run).
* re.sub(r'from src import', 'from src.test_script import', code): literal
  replacement of every non-overlapping occurrence, scanning left to right.

Substitution scans never rescan replaced text and advance by one character
when no match starts at the current position, exactly as re.sub does.
These scanning functions are defined with an explicit fuel argument (the
length of the scanned list always suffices) so that they are structurally
recursive and evaluate inside the kernel.
-/

/-- Python `\s` on ASCII: space, tab, newline, vertical tab, form feed, carriage return. -/
def isWs (c : Nat) : Bool := c == 32 || c == 9 || c == 10 || c == 11 || c == 12 || c == 13

/-- Python `\d` on ASCII digits. -/
def isDigit (c : Nat) : Bool := 48 ≤ c && c ≤ 57

/-- Python str.startswith on code-point lists. -/
def startsWith : List Nat → List Nat → Bool
  | [], _ => true
  | _ :: _, [] => false
  | a :: as, b :: bs => a == b && startsWith as bs

/-- Python substring membership (`p in s`) on code-point lists. -/
def containsSub (p : List Nat) : List Nat → Bool
  | [] => startsWith p []
  | s@(_ :: t) => startsWith p s || containsSub p t

/-- ASCII lowering, the fragment of str.lower relevant to the executor. -/
def lowerChar (c : Nat) : Nat := if 65 ≤ c ∧ c ≤ 90 then c + 32 else c

/-- Python str.lower on code-point lists (ASCII fragment). -/
def lowerStr (s : List Nat) : List Nat := s.map lowerChar

/-- Python str.lstrip (no argument): drop leading whitespace. -/
def lstrip (s : List Nat) : List Nat := s.dropWhile isWs

/-- Python str.rstrip (no argument): drop trailing whitespace. -/
def rstrip (s : List Nat) : List Nat := (s.reverse.dropWhile isWs).reverse

/-- Python str.strip (no argument). -/
def pstrip (s : List Nat) : List Nat := rstrip (lstrip s)

/-- Length of the maximal whitespace run at the head of a string. -/
def wsCount (s : List Nat) : Nat := (s.takeWhile isWs).length

/-- Code points of the string made of three backticks. -/
def bq3 : List Nat := [96, 96, 96]

/-- Code points of the fence opener for python. -/
def tagPython : List Nat := [96, 96, 96, 112, 121, 116, 104, 111, 110]

/-- Code points of the fence opener for javascript. -/
def tagJavascript : List Nat := [96, 96, 96, 106, 97, 118, 97, 115, 99, 114, 105, 112, 116]

/-- Code points of the fence opener for js. -/
def tagJs : List Nat := [96, 96, 96, 106, 115]

/-- Code points of the fence opener for typescript. -/
def tagTypescript : List Nat := [96, 96, 96, 116, 121, 112, 101, 115, 99, 114, 105, 112, 116]

/-- Code points of the fence opener for ts. -/
def tagTs : List Nat := [96, 96, 96, 116, 115]

/-- Code points of the fence opener for java. -/
def tagJava : List Nat := [96, 96, 96, 106, 97, 118, 97]

/-- Code points of the literal pattern rewritten by the python import fixer. -/
def patFromSrc : List Nat := [102, 114, 111, 109, 32, 115, 114, 99, 32, 105, 109, 112, 111, 114, 116]

/-- Code points of the replacement used by the python import fixer. -/
def repFromSrc : List Nat :=
  [102, 114, 111, 109, 32, 115, 114, 99, 46, 116, 101, 115, 116, 95, 115, 99, 114, 105, 112, 116,
   32, 105, 109, 112, 111, 114, 116]

/-- Code points of the literal checked and injected by the python cleaner. -/
def pytestLit : List Nat := [105, 109, 112, 111, 114, 116, 32, 112, 121, 116, 101, 115, 116]

/-- Code points of that literal followed by a newline, as prepended by the python cleaner. -/
def pytestPre : List Nat := [105, 109, 112, 111, 114, 116, 32, 112, 121, 116, 101, 115, 116, 10]

/-- One pass of re.sub(r'TAG\s*\n?', '', s): fuelled scan removing each
occurrence of the literal tag together with all whitespace following it. -/
def subOpenF (tag : List Nat) : Nat → List Nat → List Nat
  | 0, s => s
  | _ + 1, [] => []
  | fuel + 1, s@(c :: t) =>
    if startsWith tag s then
      subOpenF tag fuel (s.drop (tag.length + wsCount (s.drop tag.length)))
    else c :: subOpenF tag fuel t

/-- re.sub(r'TAG\s*\n?', '', s) with the scan fuelled by the input length. -/
def subOpen (tag s : List Nat) : List Nat := subOpenF tag s.length s

/-- Number of whitespace characters a match of re.sub(r'```\s*$', '', _) in
MULTILINE mode consumes after the backticks, given the maximal whitespace run
there: everything when the run reaches the end of the string, up to (and
excluding) the last newline of the run when the run contains one.  Returns
none when no match is possible at this position. -/
def closeConsume (run : List Nat) (atEnd : Bool) : Option Nat :=
  if atEnd then some run.length
  else
    let m := (run.reverse.takeWhile (fun c => !(c == 10))).length
    if m < run.length then some (run.length - 1 - m) else none

/-- One pass of re.sub(r'```\s*$', '', s, flags=re.MULTILINE), fuelled. -/
def subCloseF : Nat → List Nat → List Nat
  | 0, s => s
  | _ + 1, [] => []
  | fuel + 1, s@(c :: t) =>
    if startsWith bq3 s then
      let rest := s.drop 3
      let run := rest.takeWhile isWs
      match closeConsume run (rest.drop run.length == []) with
      | some k => subCloseF fuel (s.drop (3 + k))
      | none => c :: subCloseF fuel t
    else c :: subCloseF fuel t

/-- re.sub(r'```\s*$', '', s, flags=re.MULTILINE) with the scan fuelled. -/
def subClose (s : List Nat) : List Nat := subCloseF s.length s

/-- One pass of re.sub(r'from src import', 'from src.test_script import', s), fuelled. -/
def fixImportsF : Nat → List Nat → List Nat
  | 0, s => s
  | _ + 1, [] => []
  | fuel + 1, s@(c :: t) =>
    if startsWith patFromSrc s then repFromSrc ++ fixImportsF fuel (s.drop 15)
    else c :: fixImportsF fuel t

/-- The import repair of PythonHandler.clean_generated_code. -/
def fixImports (s : List Nat) : List Nat := fixImportsF s.length s

/-- The pytest-import injection of PythonHandler.clean_generated_code. -/
def ensurePytest (s : List Nat) : List Nat :=
  if containsSub pytestLit s then s else pytestPre ++ s

/-- PythonHandler.clean_generated_code (executor.py lines 114-125). -/
def cleanPython (code : List Nat) : List Nat :=
  pstrip (ensurePytest (fixImports (subClose (subOpen tagPython code))))

/-- JavaScriptHandler.clean_generated_code (executor.py lines 218-224). -/
def cleanJavascript (code : List Nat) : List Nat :=
  pstrip (subClose (subOpen tagJs (subOpen tagJavascript code)))

/-- TypeScriptHandler.clean_generated_code (executor.py lines 333-339). -/
def cleanTypescript (code : List Nat) : List Nat :=
  pstrip (subClose (subOpen tagTs (subOpen tagTypescript code)))

/-- JavaHandler.clean_generated_code (executor.py lines 425-430). -/
def cleanJava (code : List Nat) : List Nat :=
  pstrip (subClose (subOpen tagJava code))

/-- Code points of the python requirements manifest filename. -/
def sRequirements : List Nat := [114, 101, 113, 117, 105, 114, 101, 109, 101, 110, 116, 115, 46, 116, 120, 116]

/-- Code points of the node manifest filename. -/
def sPackageJson : List Nat := [112, 97, 99, 107, 97, 103, 101, 46, 106, 115, 111, 110]

/-- Code points of the typescript compiler options filename. -/
def sTsconfig : List Nat := [116, 115, 99, 111, 110, 102, 105, 103, 46, 106, 115, 111, 110]

/-- Code points of the jest preset filename. -/
def sJestConfig : List Nat := [106, 101, 115, 116, 46, 99, 111, 110, 102, 105, 103, 46, 106, 115, 111, 110]

/-- Code points of the maven build descriptor filename. -/
def sPomXml : List Nat := [112, 111, 109, 46, 120, 109, 108]

/-- Code points of the default test name used by the pytest failure parser. -/
def sUnknownLit : List Nat := [117, 110, 107, 110, 111, 119, 110]

/-- Code points of the default error text used by the pytest failure parser. -/
def sUnknownErr : List Nat := [85, 110, 107, 110, 111, 119, 110, 32, 101, 114, 114, 111, 114]

/-- Code points of the orchestrator error message opener. -/
def sExecFailed : List Nat := [69, 120, 101, 99, 117, 116, 105, 111, 110, 32, 102, 97, 105, 108, 101, 100, 58, 32]

/-- Code points of the unsupported-language error message opener. -/
def sUnsupported : List Nat :=
  [85, 110, 115, 117, 112, 112, 111, 114, 116, 101, 100, 32, 108, 97, 110, 103, 117, 97, 103, 101,
   58, 32]

/-- Code points of the name of the exception raised by calling lower() on a non-string. -/
def sAttrErr : List Nat := [65, 116, 116, 114, 105, 98, 117, 116, 101, 69, 114, 114, 111, 114]

/-- Code points of the dictionary key naming the declared language. -/
def sLanguage : List Nat := [108, 97, 110, 103, 117, 97, 103, 101]

/-- Code points of the language name python. -/
def sPython : List Nat := [112, 121, 116, 104, 111, 110]

/-- Code points of the language name javascript. -/
def sJavascript : List Nat := [106, 97, 118, 97, 115, 99, 114, 105, 112, 116]

/-- Code points of the language name typescript. -/
def sTypescript : List Nat := [116, 121, 112, 101, 115, 99, 114, 105, 112, 116]

/-- Code points of the language name java. -/
def sJava : List Nat := [106, 97, 118, 97]

/-- Code points of the extension .py. -/
def extPy : List Nat := [46, 112, 121]

/-- Code points of the extension .js. -/
def extJs : List Nat := [46, 106, 115]

/-- Code points of the extension .ts. -/
def extTs : List Nat := [46, 116, 115]

/-- Code points of the extension .java. -/
def extJava : List Nat := [46, 106, 97, 118, 97]

/-- Code points of the jest summary marker scanned for in stdout. -/
def sTestsColon : List Nat := [84, 101, 115, 116, 115, 58]

/-- Code points of the word failed. -/
def wFailed : List Nat := [102, 97, 105, 108, 101, 100]

/-- Code points of the word passed. -/
def wPassed : List Nat := [112, 97, 115, 115, 101, 100]

/-- Code points of the literal following the count in the jest failed pattern. -/
def sfxFailed : List Nat := [32, 102, 97, 105, 108, 101, 100]

/-- Code points of the literal following the count in the jest passed pattern. -/
def sfxPassed : List Nat := [32, 112, 97, 115, 115, 101, 100]

/-- Code points of the opener of the surefire summary pattern. -/
def mvTests : List Nat := [84, 101, 115, 116, 115, 32, 114, 117, 110, 58, 32]

/-- Code points of the middle literal of the surefire summary pattern. -/
def mvFailures : List Nat := [44, 32, 70, 97, 105, 108, 117, 114, 101, 115, 58, 32]

/-- Code points of the last literal of the surefire summary pattern. -/
def mvErrors : List Nat := [44, 32, 69, 114, 114, 111, 114, 115, 58, 32]

/-- Value of a digit string, as Python int() on a regex digit group. -/
def natOfDigits (run : List Nat) : Nat := run.foldl (fun a c => a * 10 + (c - 48)) 0

/-- Leftmost match of the pattern digits-then-literal-suffix, as
re.search of a raw string of shape group-of-digits followed by a literal:
at each position, take the maximal digit run and require the literal suffix
right after it; return the integer value of the digit group. -/
def findNumBefore (sfx : List Nat) : List Nat → Option Nat
  | [] => none
  | s@(c :: t) =>
    if isDigit c then
      let run := s.takeWhile isDigit
      if startsWith sfx (s.drop run.length) then some (natOfDigits run)
      else findNumBefore sfx t
    else findNumBefore sfx t

/-- Match of the surefire summary pattern anchored at the current position. -/
def matchMavenAt (s : List Nat) : Option (Nat × Nat × Nat) :=
  if startsWith mvTests s then
    let s1 := s.drop 11
    let r := s1.takeWhile isDigit
    if r = [] then none
    else
      let s2 := s1.drop r.length
      if startsWith mvFailures s2 then
        let s3 := s2.drop 12
        let f := s3.takeWhile isDigit
        if f = [] then none
        else
          let s4 := s3.drop f.length
          if startsWith mvErrors s4 then
            let s5 := s4.drop 10
            let e := s5.takeWhile isDigit
            if e = [] then none else some (natOfDigits r, natOfDigits f, natOfDigits e)
          else none
      else none
  else none

/-- Leftmost match of the surefire summary pattern, as re.search. -/
def findMaven : List Nat → Option (Nat × Nat × Nat)
  | [] => none
  | s@(_ :: t) =>
    match matchMavenAt s with
    | some r => some r
    | none => findMaven t

/-- The canonical result dictionary every fully-built parser result carries:
all count keys are present.  Failures are pairs of test name and error text. -/
structure ParsedReport where
  success : Bool
  return_code : Int
  stdout : List Nat
  stderr : List Nat
  tests_run : Int
  tests_passed : Int
  tests_failed : Int
  failures : List (List Nat × List Nat)
deriving DecidableEq

/-- The summary object of the pytest json report, fields may be absent. -/
structure PySummary where
  total : Option Int
  passed : Option Int
  failed : Option Int
deriving DecidableEq

/-- One entry of the tests array of the pytest json report. -/
structure PyTestEntry where
  nodeid : Option (List Nat)
  outcome : Option (List Nat)
  longrepr : Option (List Nat)
deriving DecidableEq

/-- The pytest json report as far as the parser reads it. -/
structure PyReportData where
  summary : Option PySummary
  tests : Option (List PyTestEntry)
deriving DecidableEq

/-- PythonHandler._parse_pytest_results (executor.py lines 127-161).
The first argument models the state of results.json in the sandbox after the
run: none when the file does not exist, some none when opening or decoding
it raises (the except branch swallows the error), some (some d) when it
parses as d. -/
def parsePytest (jsonData : Option (Option PyReportData)) (rc : Int)
    (stdout stderr : List Nat) : ParsedReport :=
  let base : ParsedReport :=
    { success := rc == 0, return_code := rc, stdout := stdout, stderr := stderr,
      tests_run := 0, tests_passed := 0, tests_failed := 0, failures := [] }
  match jsonData with
  | none => base
  | some none => base
  | some (some d) =>
    let summ := d.summary.getD ⟨none, none, none⟩
    let tests := d.tests.getD []
    { base with
      tests_run := summ.total.getD 0
      tests_passed := summ.passed.getD 0
      tests_failed := summ.failed.getD 0
      failures :=
        (tests.filter (fun e => e.outcome.getD [] == wFailed)).map
          (fun e => (e.nodeid.getD sUnknownLit, e.longrepr.getD sUnknownErr)) }

/-- JavaScriptHandler._parse_jest_results (executor.py lines 226-256),
also used verbatim by the TypeScript handler. -/
def parseJest (rc : Int) (stdout stderr : List Nat) : ParsedReport :=
  let base : ParsedReport :=
    { success := rc == 0, return_code := rc, stdout := stdout, stderr := stderr,
      tests_run := 0, tests_passed := 0, tests_failed := 0, failures := [] }
  if containsSub sTestsColon stdout then
    let tf : Int :=
      if containsSub wFailed stdout then
        match findNumBefore sfxFailed stdout with
        | some n => (n : Int)
        | none => 0
      else 0
    let tp : Int :=
      if containsSub wPassed stdout then
        match findNumBefore sfxPassed stdout with
        | some n => (n : Int)
        | none => 0
      else 0
    { base with tests_failed := tf, tests_passed := tp, tests_run := tp + tf }
  else base

/-- JavaHandler._parse_maven_results (executor.py lines 432-460). -/
def parseMaven (rc : Int) (stdout stderr : List Nat) : ParsedReport :=
  let base : ParsedReport :=
    { success := rc == 0, return_code := rc, stdout := stdout, stderr := stderr,
      tests_run := 0, tests_passed := 0, tests_failed := 0, failures := [] }
  match findMaven stdout with
  | some (r, f, e) =>
    { base with
      tests_run := (r : Int)
      tests_failed := (f : Int) + (e : Int)
      tests_passed := (r : Int) - (f : Int) - (e : Int) }
  | none => base

/-- What a handler run_tests call returns: either the fully-keyed parsed
dictionary, or the two-key dictionary of the except branch when the
test-runner process could not be spawned. -/
inductive RunResult where
  | parsed (r : ParsedReport)
  | spawnError (msg : List Nat)
deriving DecidableEq

/-- Environment of one run_tests call: the outcome of subprocess.run
(none when spawning raises, otherwise return code with captured stdout and
stderr), the message of the exception when it raises, and the state of the
structured report file afterwards. -/
structure RunEnv where
  proc : Option (Int × List Nat × List Nat)
  excMsg : List Nat
  jsonFile : Option (Option PyReportData)

/-- PythonHandler.run_tests (executor.py lines 106-112). -/
def runTestsPython (env : RunEnv) : RunResult :=
  match env.proc with
  | none => .spawnError env.excMsg
  | some (rc, out, err) => .parsed (parsePytest env.jsonFile rc out err)

/-- JavaScriptHandler.run_tests and TypeScriptHandler.run_tests
(executor.py lines 210-216 and 325-331). -/
def runTestsJest (env : RunEnv) : RunResult :=
  match env.proc with
  | none => .spawnError env.excMsg
  | some (rc, out, err) => .parsed (parseJest rc out err)

/-- JavaHandler.run_tests (executor.py lines 417-423). -/
def runTestsMaven (env : RunEnv) : RunResult :=
  match env.proc with
  | none => .spawnError env.excMsg
  | some (rc, out, err) => .parsed (parseMaven rc out err)

/-- The package-manager child processes a handler can spawn. -/
inductive PkgProc where
  | pip
  | npm
  | mvn
deriving DecidableEq

/-- Exit codes the environment gives the package managers; none models the
spawn itself raising. -/
structure InstallEnv where
  pipR : Option Int
  npmR : Option Int
  mvnR : Option Int

/-- Observable outcome of one install_dependencies call: the returned
boolean, the manifest files written into the sandbox, and the
package-manager processes spawned. -/
structure InstallOut where
  ok : Bool
  manifests : List (List Nat)
  procs : List PkgProc
deriving DecidableEq

/-- PythonHandler.install_dependencies (executor.py lines 91-104). -/
def installDepsPython (deps : List (List Nat)) (env : InstallEnv) : InstallOut :=
  if deps = [] then { ok := true, manifests := [], procs := [] }
  else
    { ok := match env.pipR with | some rc => rc == 0 | none => false
      manifests := [sRequirements]
      procs := [.pip] }

/-- JavaScriptHandler.install_dependencies (executor.py lines 189-208):
the manifest is written and npm spawned whether or not deps is empty. -/
def installDepsJs (_deps : List (List Nat)) (env : InstallEnv) : InstallOut :=
  { ok := match env.npmR with | some rc => rc == 0 | none => false
    manifests := [sPackageJson]
    procs := [.npm] }

/-- Code points of the message of the NameError raised by evaluating the
undefined Python name true. -/
def sNameErrTrue : List Nat :=
  [110, 97, 109, 101, 32, 39, 116, 114, 117, 101, 39, 32, 105, 115, 32, 110, 111, 116, 32,
   100, 101, 102, 105, 110, 101, 100]

/-- TypeScriptHandler.install_dependencies (executor.py lines 284-323):
building the tsconfig dictionary evaluates the undefined name true
(executor.py lines 302-303, lowercase instead of Python True), so the method
raises NameError unconditionally, before any of the three files are written
(lines 315-317) and before npm is spawned (line 320).  The error value
carries str(e); no InstallOut is ever produced. -/
def installDepsTs (_deps : List (List Nat)) (_env : InstallEnv) :
    Except (List Nat) InstallOut :=
  .error sNameErrTrue

/-- JavaHandler.install_dependencies (executor.py lines 372-415). -/
def installDepsJava (_deps : List (List Nat)) (env : InstallEnv) : InstallOut :=
  { ok := match env.mvnR with | some rc => rc == 0 | none => false
    manifests := [sPomXml]
    procs := [.mvn] }

/-- A value stored in the project context dictionary: a string, or any
non-string value, on which calling lower() raises AttributeError. -/
inductive PyVal where
  | str (s : List Nat)
  | nonStr
deriving DecidableEq

/-- The project context dictionary. -/
def Ctx : Type := List (List Nat × PyVal)

/-- Dictionary lookup. -/
def ctxLookup (ctx : Ctx) (k : List Nat) : Option PyVal :=
  match ctx with
  | [] => none
  | (k', v) :: t => if k' = k then some v else ctxLookup t k

/-- The exceptions the model distinguishes. -/
inductive PyExc where
  | attributeError
  | exc (msg : List Nat)
deriving DecidableEq

/-- str(e) for a modelled exception. -/
def excStr : PyExc → List Nat
  | .attributeError => sAttrErr
  | .exc m => m

/-- The supported language keys of the handler registry. -/
inductive Lang where
  | python
  | javascript
  | typescript
  | java
deriving DecidableEq

/-- Lookup of the handler registry self.handlers by language name. -/
def strToLang (s : List Nat) : Option Lang :=
  if s = sPython then some .python
  else if s = sJavascript then some .javascript
  else if s = sTypescript then some .typescript
  else if s = sJava then some .java
  else none

/-- Final path component, as pathlib's Path name on ordinary paths. -/
def pathName (p : List Nat) : List Nat :=
  (((p.splitOn 47).filter (fun seg => seg ≠ [])).getLast?).getD []

/-- Path suffix, as pathlib: the part of the final component from its last
dot on, empty when the last dot is absent, leading, or final. -/
def pathSuffix (p : List Nat) : List Nat :=
  let name := pathName p
  let m := (name.reverse.takeWhile (fun c => !(c == 46))).length
  if m < name.length then
    let i := name.length - 1 - m
    if 0 < i ∧ i < name.length - 1 then name.drop i else []
  else []

/-- The fixed extension table of detect_language, with its python default. -/
def extToLang (ext : List Nat) : List Nat :=
  if ext = extPy then sPython
  else if ext = extJs then sJavascript
  else if ext = extTs then sTypescript
  else if ext = extJava then sJava
  else sPython

/-- LanguageAgnosticExecutor.detect_language (executor.py lines 474-492).
A non-string language value makes lower() raise AttributeError, which the
method does not catch. -/
def detectLanguage (ctx : Ctx) (filePath : List Nat) : Except PyExc (List Nat) :=
  match ctxLookup ctx sLanguage with
  | some (.str s) =>
    let l := lowerStr s
    if (strToLang l).isSome then .ok l
    else .ok (extToLang (lowerStr (pathSuffix filePath)))
  | some .nonStr => .error .attributeError
  | none => .ok (extToLang (lowerStr (pathSuffix filePath)))

/-- clean_generated_code of the handler registered for a language. -/
def cleanFor : Lang → List Nat → List Nat
  | .python => cleanPython
  | .javascript => cleanJavascript
  | .typescript => cleanTypescript
  | .java => cleanJava

/-- Source-file extension of the handler registered for a language. -/
def sourceExt : Lang → List Nat
  | .python => extPy
  | .javascript => extJs
  | .typescript => extTs
  | .java => extJava

/-- Python str.endswith on code-point lists. -/
def endsWith (sfx s : List Nat) : Bool := startsWith sfx.reverse s.reverse

/-- The executor state the orchestrator mutates: the temp_dir field and the
set of sandbox directories existing on disk. -/
structure ExecState where
  temp_dir : Option Nat
  fs : List Nat
deriving DecidableEq

/-- The dictionary execute_tests returns.  Option fields model key presence:
every Python branch returns a dictionary with exactly the keys modelled as
some. -/
structure FinalReport where
  success : Option Bool
  error : Option (List Nat)
  return_code : Option Int
  stdout : Option (List Nat)
  stderr : Option (List Nat)
  tests_run : Option Int
  tests_passed : Option Int
  tests_failed : Option Int
  failures : Option (List (List Nat × List Nat))
  dependencies_installed : Option Bool
  language : Option (List Nat)
deriving DecidableEq

/-- The dictionary with no keys. -/
def emptyReport : FinalReport :=
  { success := none, error := none, return_code := none, stdout := none, stderr := none,
    tests_run := none, tests_passed := none, tests_failed := none, failures := none,
    dependencies_installed := none, language := none }

/-- The dictionary built by the except branch of execute_tests. -/
def exceptReport (e : PyExc) (lang : List Nat) : FinalReport :=
  { emptyReport with
    success := some false
    error := some (sExecFailed ++ excStr e)
    language := some lang }

/-- The dictionary built by the unsupported-language early return. -/
def unsupportedReport (lang : List Nat) : FinalReport :=
  { emptyReport with success := some false, error := some (sUnsupported ++ lang) }

/-- The dictionary execute_tests returns on the non-exception path: the
run_tests result with dependencies_installed and language added. -/
def assembleReport (rr : RunResult) (depsOk : Bool) (lang : List Nat) : FinalReport :=
  match rr with
  | .parsed p =>
    { success := some p.success, error := none, return_code := some p.return_code,
      stdout := some p.stdout, stderr := some p.stderr, tests_run := some p.tests_run,
      tests_passed := some p.tests_passed, tests_failed := some p.tests_failed,
      failures := some p.failures, dependencies_installed := some depsOk,
      language := some lang }
  | .spawnError m =>
    { emptyReport with
      success := some false
      error := some m
      dependencies_installed := some depsOk
      language := some lang }

/-- The steps of one execute_tests call, for tracing which ran. -/
inductive StepE where
  | detectS
  | mkdtempS
  | setupS
  | writeSrcS
  | writeTestS
  | installS
  | runS
deriving DecidableEq

/-- Outcomes the environment gives the effectful steps of one
execute_tests call; an error value means that step raises, carrying
str(e). -/
structure Oracle where
  mkdtempR : Except (List Nat) Nat
  setupR : Except (List Nat) Unit
  writeSrcR : Except (List Nat) Unit
  writeTestR : Except (List Nat) Unit
  installR : Except (List Nat) Bool
  runR : Except (List Nat) RunResult

/-- LanguageAgnosticExecutor.cleanup (executor.py lines 544-548): remove the
directory if it exists, and only then reset temp_dir. -/
def cleanupState (st : ExecState) : ExecState :=
  match st.temp_dir with
  | some d =>
    if d ∈ st.fs then { temp_dir := none, fs := st.fs.filter (fun x => x ≠ d) } else st
  | none => st

/-- LanguageAgnosticExecutor.execute_tests (executor.py lines 494-542).
Returns the outcome (error means an exception escapes to the caller), the
executor state after the call, and the trace of steps that ran.  The
cleaned code and derived filename are computed as in the source; the file
contents written into the sandbox are not otherwise tracked. -/
def executeTests (st : ExecState) (sourceCode testCode filePath : List Nat)
    (ctx : Ctx) (o : Oracle) :
    Except PyExc FinalReport × ExecState × List StepE :=
  match detectLanguage ctx filePath with
  | .error e => (.error e, st, [.detectS])
  | .ok langStr =>
    match strToLang langStr with
    | none => (.ok (unsupportedReport langStr), st, [.detectS])
    | some lang =>
      match o.mkdtempR with
      | .error m => (.ok (exceptReport (.exc m) langStr), cleanupState st, [.detectS, .mkdtempS])
      | .ok d =>
        let st1 : ExecState := { temp_dir := some d, fs := d :: st.fs }
        match o.setupR with
        | .error m =>
          (.ok (exceptReport (.exc m) langStr), cleanupState st1, [.detectS, .mkdtempS, .setupS])
        | .ok _ =>
          let _cleanSource := if sourceCode = [] then [] else cleanFor lang sourceCode
          let _cleanTest := cleanFor lang testCode
          let fname0 := pathName filePath
          let _fname := if endsWith (sourceExt lang) fname0 then fname0 else fname0 ++ sourceExt lang
          match o.writeSrcR with
          | .error m =>
            (.ok (exceptReport (.exc m) langStr), cleanupState st1,
              [.detectS, .mkdtempS, .setupS, .writeSrcS])
          | .ok _ =>
            match o.writeTestR with
            | .error m =>
              (.ok (exceptReport (.exc m) langStr), cleanupState st1,
                [.detectS, .mkdtempS, .setupS, .writeSrcS, .writeTestS])
            | .ok _ =>
              match o.installR with
              | .error m =>
                (.ok (exceptReport (.exc m) langStr), cleanupState st1,
                  [.detectS, .mkdtempS, .setupS, .writeSrcS, .writeTestS, .installS])
              | .ok depsOk =>
                match o.runR with
                | .error m =>
                  (.ok (exceptReport (.exc m) langStr), cleanupState st1,
                    [.detectS, .mkdtempS, .setupS, .writeSrcS, .writeTestS, .installS, .runS])
                | .ok rr =>
                  (.ok (assembleReport rr depsOk langStr), cleanupState st1,
                    [.detectS, .mkdtempS, .setupS, .writeSrcS, .writeTestS, .installS, .runS])

/-- The three count entries of a run_tests result dictionary, none when the
dictionary does not carry them (the spawn-failure branch). -/
def runCounts : RunResult → Option (Int × Int × Int)
  | .parsed p => some (p.tests_run, p.tests_passed, p.tests_failed)
  | .spawnError _ => none

/-- Whether any effectful step outcome of the oracle is an exception. -/
def oracleRaises (o : Oracle) : Bool :=
  !o.mkdtempR.isOk || !o.setupR.isOk || !o.writeSrcR.isOk || !o.writeTestR.isOk ||
    !o.installR.isOk || !o.runR.isOk

/-- The proper nonempty tails of patFromSrc, used to track partially matched
occurrences across the import-fixing scan. -/
def patTails : List (List Nat) :=
  [[114, 111, 109, 32, 115, 114, 99, 32, 105, 109, 112, 111, 114, 116],
   [111, 109, 32, 115, 114, 99, 32, 105, 109, 112, 111, 114, 116],
   [109, 32, 115, 114, 99, 32, 105, 109, 112, 111, 114, 116],
   [32, 115, 114, 99, 32, 105, 109, 112, 111, 114, 116],
   [115, 114, 99, 32, 105, 109, 112, 111, 114, 116],
   [114, 99, 32, 105, 109, 112, 111, 114, 116],
   [99, 32, 105, 109, 112, 111, 114, 116],
   [32, 105, 109, 112, 111, 114, 116],
   [105, 109, 112, 111, 114, 116],
   [109, 112, 111, 114, 116],
   [112, 111, 114, 116],
   [111, 114, 116],
   [114, 116],
   [116]]

theorem startsWith_iff {p s : List Nat} : startsWith p s = true ↔ p <+: s := by
  induction p generalizing s with
  | nil => simp [startsWith]
  | cons a as ih =>
    cases s with
    | nil => simp [startsWith]
    | cons b bs => simp [startsWith, List.cons_prefix_cons, ih]

theorem containsSub_iff {p s : List Nat} : containsSub p s = true ↔ p <:+: s := by
  induction s with
  | nil => simp [containsSub, startsWith_iff]
  | cons c t ih => simp [containsSub, startsWith_iff, ih, List.infix_cons_iff]

theorem startsWith_length {p s : List Nat} (h : startsWith p s = true) : p.length ≤ s.length :=
  (startsWith_iff.mp h).length_le

theorem startsWith_append_of {p a b : List Nat} (h : startsWith p a = true) :
    startsWith p (a ++ b) = true :=
  startsWith_iff.mpr ((startsWith_iff.mp h).trans (List.prefix_append a b))

theorem startsWith_self_append (p b : List Nat) : startsWith p (p ++ b) = true :=
  startsWith_iff.mpr (List.prefix_append p b)

theorem startsWith_of_append {a b s : List Nat} (h : startsWith (a ++ b) s = true) :
    startsWith a s = true :=
  startsWith_iff.mpr ((List.prefix_append a b).trans (startsWith_iff.mp h))

theorem containsSub_of_startsWith {p s : List Nat} (h : startsWith p s = true) :
    containsSub p s = true := by
  cases s with
  | nil => simpa [containsSub] using h
  | cons c t => simp [containsSub, h]

theorem containsSub_append {p a s : List Nat} (h : containsSub p s = true) :
    containsSub p (a ++ s) = true := by
  induction a with
  | nil => simpa using h
  | cons x xs ih => simp [containsSub, ih]

theorem containsSub_of_dropWhile {p : List Nat} {q : Nat → Bool} :
    ∀ {s : List Nat}, containsSub p (s.dropWhile q) = true → containsSub p s = true := by
  intro s
  induction s with
  | nil => simp
  | cons c t ih =>
    intro h
    by_cases hq : q c
    · rw [List.dropWhile_cons] at h
      simp only [hq, if_true] at h
      simp [containsSub, ih h]
    · rw [List.dropWhile_cons] at h
      simp only [hq, if_false] at h
      exact h

theorem containsSub_dropWhile_keep {hc : Nat} {pm : List Nat} {q : Nat → Bool}
    (hq : q hc = false) :
    ∀ {s : List Nat}, containsSub (hc :: pm) s = true →
      containsSub (hc :: pm) (s.dropWhile q) = true := by
  intro s
  induction s with
  | nil => simp
  | cons c t ih =>
    intro h
    by_cases hqc : q c
    · rw [List.dropWhile_cons]
      simp only [hqc, if_true]
      apply ih
      have h2 : startsWith (hc :: pm) (c :: t) = true ∨ containsSub (hc :: pm) t = true := by
        simpa [containsSub] using h
      rcases h2 with h1 | h1
      · exfalso
        have hce : hc = c := by
          simp [startsWith] at h1
          exact h1.1
        rw [hce] at hq
        rw [hq] at hqc
        simp at hqc
      · exact h1
    · rw [List.dropWhile_cons]
      simp only [hqc, if_false]
      exact h

theorem containsSub_rev {p s : List Nat} :
    containsSub p s.reverse = true ↔ containsSub p.reverse s = true := by
  rw [containsSub_iff, containsSub_iff]
  have h1 : p.reverse.reverse <:+: s.reverse ↔ p.reverse <:+: s := List.reverse_infix
  rw [List.reverse_reverse] at h1
  exact h1

theorem containsSub_rstrip_of {p s : List Nat} (h : containsSub p (rstrip s) = true) :
    containsSub p s = true := by
  unfold rstrip at h
  rw [containsSub_rev] at h
  have h2 := containsSub_of_dropWhile h
  have h3 : containsSub p (s.reverse.reverse) = true := containsSub_rev.mpr h2
  simpa [List.reverse_reverse] using h3

theorem containsSub_rstrip_keep {lc : Nat} {pr p s : List Nat}
    (hrev : p.reverse = lc :: pr) (hlc : isWs lc = false)
    (h : containsSub p s = true) : containsSub p (rstrip s) = true := by
  unfold rstrip
  rw [containsSub_rev, hrev]
  apply containsSub_dropWhile_keep hlc
  rw [← hrev]
  have h3 : containsSub p (s.reverse.reverse) = true := by
    simpa [List.reverse_reverse] using h
  exact containsSub_rev.mp h3

theorem containsSub_pstrip_of {p s : List Nat} (h : containsSub p (pstrip s) = true) :
    containsSub p s = true := by
  unfold pstrip at h
  exact containsSub_of_dropWhile (containsSub_rstrip_of h)

theorem containsSub_pstrip_keep {hc lc : Nat} {pm pr p s : List Nat}
    (hp : p = hc :: pm) (hhc : isWs hc = false)
    (hrev : p.reverse = lc :: pr) (hlc : isWs lc = false)
    (h : containsSub p s = true) : containsSub p (pstrip s) = true := by
  unfold pstrip
  apply containsSub_rstrip_keep hrev hlc
  rw [hp] at h ⊢
  exact containsSub_dropWhile_keep hhc h

theorem dropWhile_dropWhile_self {q : Nat → Bool} :
    ∀ s : List Nat, (s.dropWhile q).dropWhile q = s.dropWhile q := by
  intro s
  induction s with
  | nil => simp
  | cons c t ih =>
    rw [List.dropWhile_cons]
    by_cases hq : q c = true
    · simp only [hq, if_true]
      exact ih
    · simp [List.dropWhile_cons, hq]

theorem rstrip_prefix_self (s : List Nat) : rstrip s <+: s := by
  unfold rstrip
  have h1 : (s.reverse.dropWhile isWs) <:+ s.reverse := List.dropWhile_suffix isWs
  have h2 := ( List.reverse_prefix).mpr h1
  rw [List.reverse_reverse] at h2
  exact h2

theorem lstrip_cons_nonws {c : Nat} {t : List Nat} (h : isWs c = false) :
    lstrip (c :: t) = c :: t := by
  simp [lstrip, List.dropWhile_cons, h]

theorem pstrip_idem (s : List Nat) : pstrip (pstrip s) = pstrip s := by
  unfold pstrip
  have hl : lstrip (lstrip s) = lstrip s := dropWhile_dropWhile_self s
  have hw : lstrip (rstrip (lstrip s)) = rstrip (lstrip s) := by
    cases hrw : rstrip (lstrip s) with
    | nil => simp [lstrip]
    | cons c r =>
      have hpre := rstrip_prefix_self (lstrip s)
      rw [hrw] at hpre
      rcases hpre with ⟨t2, ht2⟩
      have hws : isWs c = false := by
        by_contra hcc
        rw [Bool.not_eq_false] at hcc
        have hl2 := hl
        rw [← ht2] at hl2
        simp only [List.cons_append] at hl2
        rw [show lstrip (c :: (r ++ t2)) = (r ++ t2).dropWhile isWs by
          simp [lstrip, List.dropWhile_cons, hcc]] at hl2
        have hlen := congrArg List.length hl2
        rw [List.length_cons] at hlen
        have hsuf : (r ++ t2).dropWhile isWs <:+ (r ++ t2) := List.dropWhile_suffix isWs
        have hle := hsuf.length_le
        omega
      exact lstrip_cons_nonws hws
  rw [hw]
  unfold rstrip
  rw [List.reverse_reverse, dropWhile_dropWhile_self]

theorem containsSub_cons_split {c : Nat} {pl t : List Nat}
    (h : containsSub pl (c :: t) = false) :
    startsWith pl (c :: t) = false ∧ containsSub pl t = false := by
  simp only [containsSub, Bool.or_eq_false_iff] at h
  exact h

theorem subOpenF_id {tag w : List Nat} (htag : tag = bq3 ++ w) :
    ∀ (fuel : Nat) {s : List Nat}, containsSub bq3 s = false → subOpenF tag fuel s = s := by
  intro fuel
  induction fuel with
  | zero => intro s _; rfl
  | succ n ih =>
    intro s h
    cases s with
    | nil => rfl
    | cons c t =>
      have hsplit := containsSub_cons_split h
      have hns : startsWith tag (c :: t) = false := by
        by_contra hcc
        rw [Bool.not_eq_false, htag] at hcc
        have h2 := startsWith_of_append hcc
        rw [hsplit.1] at h2
        simp at h2
      simp [subOpenF, hns, ih hsplit.2]

theorem subCloseF_id :
    ∀ (fuel : Nat) {s : List Nat}, containsSub bq3 s = false → subCloseF fuel s = s := by
  intro fuel
  induction fuel with
  | zero => intro s _; rfl
  | succ n ih =>
    intro s h
    cases s with
    | nil => rfl
    | cons c t =>
      have hsplit := containsSub_cons_split h
      simp [subCloseF, hsplit.1, ih hsplit.2]

theorem fixImportsF_id :
    ∀ (fuel : Nat) {s : List Nat}, containsSub patFromSrc s = false → fixImportsF fuel s = s := by
  intro fuel
  induction fuel with
  | zero => intro s _; rfl
  | succ n ih =>
    intro s h
    cases s with
    | nil => rfl
    | cons c t =>
      have hsplit := containsSub_cons_split h
      simp [fixImportsF, hsplit.1, ih hsplit.2]

theorem subOpen_id {tag w : List Nat} (htag : tag = bq3 ++ w) {s : List Nat}
    (h : containsSub bq3 s = false) : subOpen tag s = s :=
  subOpenF_id htag s.length h

theorem subClose_id {s : List Nat} (h : containsSub bq3 s = false) : subClose s = s :=
  subCloseF_id s.length h

theorem not_contains_pat_rep_append {X : List Nat} (h : containsSub patFromSrc X = false) :
    containsSub patFromSrc (repFromSrc ++ X) = false := by
  simp only [patFromSrc] at h
  simp [repFromSrc, patFromSrc, containsSub, startsWith, h]

theorem not_contains_pat_pytest_append {X : List Nat}
    (h : containsSub patFromSrc X = false) :
    containsSub patFromSrc (pytestPre ++ X) = false := by
  simp only [patFromSrc] at h
  simp [pytestPre, patFromSrc, containsSub, startsWith, h]

theorem fixImportsF_startsWith_tail :
    ∀ (fuel : Nat) (t u : List Nat), u ∈ patTails →
      startsWith u (fixImportsF fuel t) = true → startsWith u t = true := by
  intro fuel
  induction fuel with
  | zero => intro t u _ h3; exact h3
  | succ n ih =>
    intro t u hu h3
    cases t with
    | nil =>
      rw [show fixImportsF (n + 1) [] = [] from rfl] at h3
      simp only [patTails, List.mem_cons, List.not_mem_nil, or_false] at hu
      rcases hu with rfl | rfl | rfl | rfl | rfl | rfl | rfl | rfl | rfl | rfl | rfl | rfl |
        rfl | rfl <;> simp [startsWith] at h3
    | cons c t' =>
      by_cases hm : startsWith patFromSrc (c :: t') = true
      · exfalso
        rw [show fixImportsF (n + 1) (c :: t') =
            repFromSrc ++ fixImportsF n ((c :: t').drop 15) from by simp [fixImportsF, hm]] at h3
        simp only [patTails, List.mem_cons, List.not_mem_nil, or_false] at hu
        rcases hu with rfl | rfl | rfl | rfl | rfl | rfl | rfl | rfl | rfl | rfl | rfl | rfl |
          rfl | rfl <;> simp [repFromSrc, startsWith] at h3
      · rw [show fixImportsF (n + 1) (c :: t') = c :: fixImportsF n t' from by
          simp [fixImportsF, hm]] at h3
        simp only [patTails, List.mem_cons, List.not_mem_nil, or_false] at hu
        rcases hu with rfl | rfl | rfl | rfl | rfl | rfl | rfl | rfl | rfl | rfl | rfl | rfl |
          rfl | rfl <;>
          simp only [startsWith, Bool.and_eq_true, beq_iff_eq] at h3 ⊢ <;>
          first
          | exact ⟨h3.1, ih t' _ (by decide) h3.2⟩
          | exact h3

theorem fixImportsF_no_pat :
    ∀ (fuel : Nat) (s : List Nat), s.length ≤ fuel →
      containsSub patFromSrc (fixImportsF fuel s) = false := by
  intro fuel
  induction fuel with
  | zero =>
    intro s hs
    have hnil : s = [] := List.length_eq_zero.mp (Nat.le_zero.mp hs)
    subst hnil
    decide
  | succ n ih =>
    intro s hs
    cases s with
    | nil =>
      rw [show fixImportsF (n + 1) [] = [] from rfl]
      decide
    | cons c t =>
      by_cases hm : startsWith patFromSrc (c :: t) = true
      · rw [show fixImportsF (n + 1) (c :: t) =
            repFromSrc ++ fixImportsF n ((c :: t).drop 15) from by simp [fixImportsF, hm]]
        apply not_contains_pat_rep_append
        apply ih
        have hlen : (List.drop 15 (c :: t)).length = (c :: t).length - 15 :=
          List.length_drop 15 (c :: t)
        simp only [List.length_cons] at hlen hs
        omega
      · rw [show fixImportsF (n + 1) (c :: t) = c :: fixImportsF n t from by
          simp [fixImportsF, hm]]
        have hF : containsSub patFromSrc (fixImportsF n t) = false := by
          apply ih
          simp only [List.length_cons] at hs
          omega
        have hsw : startsWith patFromSrc (c :: fixImportsF n t) = false := by
          by_contra hcc
          rw [Bool.not_eq_false] at hcc
          simp only [patFromSrc, startsWith, Bool.and_eq_true, beq_iff_eq] at hcc
          have hb := fixImportsF_startsWith_tail n t
            [114, 111, 109, 32, 115, 114, 99, 32, 105, 109, 112, 111, 114, 116]
            (by decide) hcc.2
          apply hm
          simp only [patFromSrc, startsWith, Bool.and_eq_true, beq_iff_eq]
          exact ⟨hcc.1, hb⟩
        simp [containsSub, hsw, hF]

theorem fixImports_no_pat (s : List Nat) : containsSub patFromSrc (fixImports s) = false :=
  fixImportsF_no_pat s.length s le_rfl

theorem fixImports_id {s : List Nat} (h : containsSub patFromSrc s = false) :
    fixImports s = s :=
  fixImportsF_id s.length h

theorem containsSub_pytest_ensure (s : List Nat) :
    containsSub pytestLit (ensurePytest s) = true := by
  unfold ensurePytest
  by_cases h : containsSub pytestLit s = true
  · simp [h]
  · rw [if_neg h]
    have happ : pytestPre ++ s = pytestLit ++ (10 :: s) := by simp [pytestPre, pytestLit]
    rw [happ]
    exact containsSub_of_startsWith (startsWith_self_append pytestLit (10 :: s))

theorem cleanPython_no_pat (x : List Nat) :
    containsSub patFromSrc (cleanPython x) = false := by
  have h1 := fixImports_no_pat (subClose (subOpen tagPython x))
  have h2 : containsSub patFromSrc
      (ensurePytest (fixImports (subClose (subOpen tagPython x)))) = false := by
    unfold ensurePytest
    by_cases hc : containsSub pytestLit (fixImports (subClose (subOpen tagPython x))) = true
    · simp [hc, h1]
    · simp only [Bool.not_eq_true] at hc
      simp only [hc, if_false]
      exact not_contains_pat_pytest_append h1
  by_contra hcc
  rw [Bool.not_eq_false] at hcc
  have := containsSub_pstrip_of hcc
  rw [h2] at this
  simp at this

theorem cleanPython_has_pytest (x : List Nat) :
    containsSub pytestLit (cleanPython x) = true := by
  unfold cleanPython
  apply containsSub_pstrip_keep (show pytestLit = 105 ::
      [109, 112, 111, 114, 116, 32, 112, 121, 116, 101, 115, 116] from rfl)
    (by decide)
    (show pytestLit.reverse = 116 ::
      [115, 101, 116, 121, 112, 32, 116, 114, 111, 112, 109, 105] from by decide)
    (by decide)
  exact containsSub_pytest_ensure _

theorem cleanPython_idem {x : List Nat} (hb : containsSub bq3 (cleanPython x) = false) :
    cleanPython (cleanPython x) = cleanPython x := by
  have hpat := cleanPython_no_pat x
  have hpy := cleanPython_has_pytest x
  have h1 : subOpen tagPython (cleanPython x) = cleanPython x :=
    subOpen_id (show tagPython = bq3 ++ [112, 121, 116, 104, 111, 110] by decide) hb
  have h2 : subClose (cleanPython x) = cleanPython x := subClose_id hb
  have h3 : fixImports (cleanPython x) = cleanPython x := fixImports_id hpat
  have h4 : ensurePytest (cleanPython x) = cleanPython x := by
    unfold ensurePytest
    simp [hpy]
  have h5 : pstrip (cleanPython x) = cleanPython x := by
    rw [show cleanPython x =
      pstrip (ensurePytest (fixImports (subClose (subOpen tagPython x)))) from rfl]
    exact pstrip_idem _
  calc cleanPython (cleanPython x)
      = pstrip (ensurePytest (fixImports (subClose (subOpen tagPython (cleanPython x))))) := rfl
    _ = cleanPython x := by rw [h1, h2, h3, h4, h5]

theorem cleanJavascript_idem {x : List Nat}
    (hb : containsSub bq3 (cleanJavascript x) = false) :
    cleanJavascript (cleanJavascript x) = cleanJavascript x := by
  have h1 : subOpen tagJavascript (cleanJavascript x) = cleanJavascript x :=
    subOpen_id (show tagJavascript = bq3 ++
      [106, 97, 118, 97, 115, 99, 114, 105, 112, 116] by decide) hb
  have h1b : subOpen tagJs (cleanJavascript x) = cleanJavascript x :=
    subOpen_id (show tagJs = bq3 ++ [106, 115] by decide) hb
  have h2 : subClose (cleanJavascript x) = cleanJavascript x := subClose_id hb
  have h5 : pstrip (cleanJavascript x) = cleanJavascript x := by
    rw [show cleanJavascript x =
      pstrip (subClose (subOpen tagJs (subOpen tagJavascript x))) from rfl]
    exact pstrip_idem _
  calc cleanJavascript (cleanJavascript x)
      = pstrip (subClose (subOpen tagJs (subOpen tagJavascript (cleanJavascript x)))) := rfl
    _ = cleanJavascript x := by rw [h1, h1b, h2, h5]

theorem cleanTypescript_idem {x : List Nat}
    (hb : containsSub bq3 (cleanTypescript x) = false) :
    cleanTypescript (cleanTypescript x) = cleanTypescript x := by
  have h1 : subOpen tagTypescript (cleanTypescript x) = cleanTypescript x :=
    subOpen_id (show tagTypescript = bq3 ++
      [116, 121, 112, 101, 115, 99, 114, 105, 112, 116] by decide) hb
  have h1b : subOpen tagTs (cleanTypescript x) = cleanTypescript x :=
    subOpen_id (show tagTs = bq3 ++ [116, 115] by decide) hb
  have h2 : subClose (cleanTypescript x) = cleanTypescript x := subClose_id hb
  have h5 : pstrip (cleanTypescript x) = cleanTypescript x := by
    rw [show cleanTypescript x =
      pstrip (subClose (subOpen tagTs (subOpen tagTypescript x))) from rfl]
    exact pstrip_idem _
  calc cleanTypescript (cleanTypescript x)
      = pstrip (subClose (subOpen tagTs (subOpen tagTypescript (cleanTypescript x)))) := rfl
    _ = cleanTypescript x := by rw [h1, h1b, h2, h5]

theorem cleanJava_idem {x : List Nat} (hb : containsSub bq3 (cleanJava x) = false) :
    cleanJava (cleanJava x) = cleanJava x := by
  have h1 : subOpen tagJava (cleanJava x) = cleanJava x :=
    subOpen_id (show tagJava = bq3 ++ [106, 97, 118, 97] by decide) hb
  have h2 : subClose (cleanJava x) = cleanJava x := subClose_id hb
  have h5 : pstrip (cleanJava x) = cleanJava x := by
    rw [show cleanJava x = pstrip (subClose (subOpen tagJava x)) from rfl]
    exact pstrip_idem _
  calc cleanJava (cleanJava x)
      = pstrip (subClose (subOpen tagJava (cleanJava x))) := rfl
    _ = cleanJava x := by rw [h1, h2, h5]

theorem startsWith_pytest_rstrip {z : List Nat} (h : startsWith pytestLit z = true) :
    startsWith pytestLit (rstrip z) = true := by
  obtain ⟨r, hr⟩ := startsWith_iff.mp h
  subst hr
  unfold rstrip
  rw [List.reverse_append, List.dropWhile_append]
  by_cases he : (r.reverse.dropWhile isWs).isEmpty = true
  · rw [if_pos he]
    rw [show pytestLit.reverse.dropWhile isWs = pytestLit.reverse from by decide]
    rw [List.reverse_reverse]
    decide
  · rw [if_neg he]
    rw [List.reverse_append, List.reverse_reverse]
    exact startsWith_self_append _ _

theorem startsWith_pytest_pstrip_pre (w : List Nat) :
    startsWith pytestLit (pstrip (pytestPre ++ w)) = true := by
  unfold pstrip
  rw [show pytestPre ++ w =
    105 :: ([109, 112, 111, 114, 116, 32, 112, 121, 116, 101, 115, 116, 10] ++ w) from rfl]
  rw [lstrip_cons_nonws (by decide)]
  apply startsWith_pytest_rstrip
  rw [show (105 : Nat) :: ([109, 112, 111, 114, 116, 32, 112, 121, 116, 101, 115, 116, 10] ++ w) =
    pytestLit ++ (10 :: w) from rfl]
  exact startsWith_self_append _ _

theorem cleanupState_none {st : ExecState} (h : st.temp_dir = none) : cleanupState st = st := by
  unfold cleanupState
  rw [h]

theorem cleanupState_fresh {st : ExecState} (d : Nat) (h : st.temp_dir = none)
    (hd : d ∉ st.fs) : cleanupState { temp_dir := some d, fs := d :: st.fs } = st := by
  unfold cleanupState
  simp only
  rw [if_pos (List.mem_cons_self d st.fs)]
  have h1 : ∀ a ∈ st.fs, (fun x => decide (x ≠ d)) a = true := by
    intro a ha
    have hne : a ≠ d := fun hEq => hd (hEq ▸ ha)
    simpa using hne
  have h3 : List.filter (fun x => decide (x ≠ d)) st.fs = st.fs := List.filter_eq_self.mpr h1
  have hf : List.filter (fun x => decide (x ≠ d)) (d :: st.fs) = st.fs := by
    rw [List.filter_cons, h3]
    simp
  obtain ⟨td, fs⟩ := st
  simp only at h hf ⊢
  subst h
  simp only [ExecState.mk.injEq, true_and]
  exact hf

theorem executeTests_state (st : ExecState) (src tst fp : List Nat) (ctx : Ctx) (o : Oracle)
    (htd : st.temp_dir = none)
    (hfresh : ∀ d, o.mkdtempR = .ok d → d ∉ st.fs) :
    (executeTests st src tst fp ctx o).2.1 = st := by
  unfold executeTests
  cases hdet : detectLanguage ctx fp with
  | error e => simp
  | ok l =>
    cases hsl : strToLang l with
    | none => simp [hsl]
    | some lang =>
      cases hmk : o.mkdtempR with
      | error m => simp [hsl, hmk, cleanupState_none htd]
      | ok d =>
        have hcl := cleanupState_fresh d htd (hfresh d hmk)
        cases hsu : o.setupR with
        | error m => simp [hsl, hmk, hsu, hcl]
        | ok u =>
          cases hws : o.writeSrcR with
          | error m => simp [hsl, hmk, hsu, hws, hcl]
          | ok u2 =>
            cases hwt : o.writeTestR with
            | error m => simp [hsl, hmk, hsu, hws, hwt, hcl]
            | ok u3 =>
              cases hin : o.installR with
              | error m => simp [hsl, hmk, hsu, hws, hwt, hin, hcl]
              | ok depsOk =>
                cases hrun : o.runR with
                | error m => simp [hsl, hmk, hsu, hws, hwt, hin, hrun, hcl]
                | ok rr => simp [hsl, hmk, hsu, hws, hwt, hin, hrun, hcl]

/-- C1: after any execute_tests call that returns (successfully, with a failed
report, or with a report produced from a caught exception), the sandbox
directory created by that call no longer exists in the filesystem and the
executor's temp_dir field is none. -/
theorem executeTests_sandbox_destroyed (st : ExecState) (src tst fp : List Nat) (ctx : Ctx)
    (o : Oracle) (rep : FinalReport)
    (htd : st.temp_dir = none)
    (hfresh : ∀ d, o.mkdtempR = .ok d → d ∉ st.fs)
    (hret : (executeTests st src tst fp ctx o).1 = .ok rep) :
    (executeTests st src tst fp ctx o).2.1.temp_dir = none ∧
    ∀ d, o.mkdtempR = .ok d → d ∉ (executeTests st src tst fp ctx o).2.1.fs := by
  have hst := executeTests_state st src tst fp ctx o htd hfresh
  rw [hst]
  exact ⟨htd, hfresh⟩

/-- C1 witness: a concrete call on a fresh executor with an all-successful
environment leaves temp_dir reset and the created directory 5 removed. -/
theorem executeTests_sandbox_destroyed_witness :
    (executeTests { temp_dir := none, fs := [] } [] [] [] []
      { mkdtempR := .ok 5, setupR := .ok (), writeSrcR := .ok (), writeTestR := .ok (),
        installR := .ok true, runR := .ok (RunResult.spawnError []) }).2.1.temp_dir = none ∧
    (5 : Nat) ∉ (executeTests { temp_dir := none, fs := [] } [] [] [] []
      { mkdtempR := .ok 5, setupR := .ok (), writeSrcR := .ok (), writeTestR := .ok (),
        installR := .ok true, runR := .ok (RunResult.spawnError []) }).2.1.fs := by
  have h := executeTests_sandbox_destroyed { temp_dir := none, fs := [] } [] [] [] []
    { mkdtempR := .ok 5, setupR := .ok (), writeSrcR := .ok (), writeTestR := .ok (),
      installR := .ok true, runR := .ok (RunResult.spawnError []) }
    (assembleReport (RunResult.spawnError []) true sPython)
    rfl (by intro d hd; exact List.not_mem_nil d) (by rfl)
  exact ⟨h.1, h.2 5 rfl⟩

/-- C6: when install_dependencies reports failure, execution is not aborted:
the test runner still runs, and the returned report carries
dependencies_installed false together with the run result and the detected
language. -/
theorem depsFailure_execution_continues (st : ExecState) (src tst fp : List Nat) (ctx : Ctx)
    (o : Oracle) (langStr : List Nat) (lang : Lang) (d : Nat) (rr : RunResult)
    (hdet : detectLanguage ctx fp = .ok langStr)
    (hlang : strToLang langStr = some lang)
    (hmk : o.mkdtempR = .ok d) (hsu : o.setupR = .ok ())
    (hws : o.writeSrcR = .ok ()) (hwt : o.writeTestR = .ok ())
    (hin : o.installR = .ok false) (hrun : o.runR = .ok rr) :
    (executeTests st src tst fp ctx o).1 = .ok (assembleReport rr false langStr) ∧
    StepE.runS ∈ (executeTests st src tst fp ctx o).2.2 ∧
    (assembleReport rr false langStr).dependencies_installed = some false ∧
    (assembleReport rr false langStr).language = some langStr := by
  refine ⟨?_, ?_, ?_, ?_⟩
  · simp [executeTests, hdet, hlang, hmk, hsu, hws, hwt, hin, hrun]
  · simp [executeTests, hdet, hlang, hmk, hsu, hws, hwt, hin, hrun]
  · cases rr <;> simp [assembleReport]
  · cases rr <;> simp [assembleReport]

/-- C6 witness: concrete run where dependency installation fails (returns
false) and the jest runner still produces a parsed report. -/
theorem depsFailure_execution_continues_witness :
    (executeTests { temp_dir := none, fs := [] } [] [] [] []
      { mkdtempR := .ok 0, setupR := .ok (), writeSrcR := .ok (), writeTestR := .ok (),
        installR := .ok false, runR := .ok (RunResult.spawnError [101]) }).1 =
      .ok (assembleReport (RunResult.spawnError [101]) false sPython) ∧
    StepE.runS ∈ (executeTests { temp_dir := none, fs := [] } [] [] [] []
      { mkdtempR := .ok 0, setupR := .ok (), writeSrcR := .ok (), writeTestR := .ok (),
        installR := .ok false, runR := .ok (RunResult.spawnError [101]) }).2.2 ∧
    (assembleReport (RunResult.spawnError [101]) false sPython).dependencies_installed =
      some false ∧
    (assembleReport (RunResult.spawnError [101]) false sPython).language = some sPython :=
  depsFailure_execution_continues { temp_dir := none, fs := [] } [] [] [] []
    { mkdtempR := .ok 0, setupR := .ok (), writeSrcR := .ok (), writeTestR := .ok (),
      installR := .ok false, runR := .ok (RunResult.spawnError [101]) }
    sPython Lang.python 0 (RunResult.spawnError [101])
    (by rfl) (by rfl) rfl rfl rfl rfl rfl rfl

/-- C2 counterexample: with a non-string language entry in project_context,
execute_tests raises AttributeError to its caller (detect_language runs
before the try block), instead of returning a failed report. -/
theorem executeTests_raises_attributeError_cx :
    (executeTests { temp_dir := none, fs := [] } [] [] []
      [([108, 97, 110, 103, 117, 97, 103, 101], PyVal.nonStr)]
      { mkdtempR := .ok 0, setupR := .ok (), writeSrcR := .ok (), writeTestR := .ok (),
        installR := .ok true, runR := .ok (RunResult.spawnError []) }).1 =
    .error PyExc.attributeError := rfl

/-- C2 amended: whenever detect_language itself does not raise (its only
failure mode is a non-string language value), execute_tests returns a report
instead of raising, and if any effectful step raises, the report has
success false and an error message. -/
theorem executeTests_no_raise_amended (st : ExecState) (src tst fp : List Nat) (ctx : Ctx)
    (o : Oracle) (l : List Nat)
    (hdet : detectLanguage ctx fp = .ok l) :
    ∃ rep, (executeTests st src tst fp ctx o).1 = .ok rep ∧
      (oracleRaises o = true → rep.success = some false ∧ rep.error ≠ none) := by
  unfold executeTests
  cases hsl : strToLang l with
  | none =>
    refine ⟨unsupportedReport l, by simp [hdet, hsl], fun _ => ⟨?_, ?_⟩⟩
    · rfl
    · simp [unsupportedReport, emptyReport]
  | some lang =>
    cases hmk : o.mkdtempR with
    | error m =>
      refine ⟨exceptReport (.exc m) l, by simp [hdet, hsl, hmk], fun _ => ⟨?_, ?_⟩⟩
      · rfl
      · simp [exceptReport, emptyReport]
    | ok d =>
      cases hsu : o.setupR with
      | error m =>
        refine ⟨exceptReport (.exc m) l, by simp [hdet, hsl, hmk, hsu], fun _ => ⟨?_, ?_⟩⟩
        · rfl
        · simp [exceptReport, emptyReport]
      | ok u =>
        cases hws : o.writeSrcR with
        | error m =>
          refine ⟨exceptReport (.exc m) l, by simp [hdet, hsl, hmk, hsu, hws],
            fun _ => ⟨?_, ?_⟩⟩
          · rfl
          · simp [exceptReport, emptyReport]
        | ok u2 =>
          cases hwt : o.writeTestR with
          | error m =>
            refine ⟨exceptReport (.exc m) l, by simp [hdet, hsl, hmk, hsu, hws, hwt],
              fun _ => ⟨?_, ?_⟩⟩
            · rfl
            · simp [exceptReport, emptyReport]
          | ok u3 =>
            cases hin : o.installR with
            | error m =>
              refine ⟨exceptReport (.exc m) l, by simp [hdet, hsl, hmk, hsu, hws, hwt, hin],
                fun _ => ⟨?_, ?_⟩⟩
              · rfl
              · simp [exceptReport, emptyReport]
            | ok depsOk =>
              cases hrun : o.runR with
              | error m =>
                refine ⟨exceptReport (.exc m) l,
                  by simp [hdet, hsl, hmk, hsu, hws, hwt, hin, hrun], fun _ => ⟨?_, ?_⟩⟩
                · rfl
                · simp [exceptReport, emptyReport]
              | ok rr =>
                refine ⟨assembleReport rr depsOk l,
                  by simp [hdet, hsl, hmk, hsu, hws, hwt, hin, hrun], fun hc => ?_⟩
                exfalso
                unfold oracleRaises at hc
                rw [hmk, hsu, hws, hwt, hin, hrun] at hc
                simp [Except.isOk, Except.toBool] at hc

/-- C2 witness: a concrete call whose setup step raises still returns a
report, and that report is failed with an error message. -/
theorem executeTests_no_raise_witness :
    ((executeTests { temp_dir := none, fs := [] } [] [] [] []
      { mkdtempR := .ok 0, setupR := .error [98, 111, 111, 109], writeSrcR := .ok (),
        writeTestR := .ok (), installR := .ok true,
        runR := .ok (RunResult.spawnError []) }).1).isOk = true := by
  obtain ⟨rep, hrep, _⟩ := executeTests_no_raise_amended { temp_dir := none, fs := [] }
    [] [] [] []
    { mkdtempR := .ok 0, setupR := .error [98, 111, 111, 109], writeSrcR := .ok (),
      writeTestR := .ok (), installR := .ok true, runR := .ok (RunResult.spawnError []) }
    sPython rfl
  rw [hrep]
  rfl

/-- C4: detect_language resolution order: a declared language naming a
supported handler (case-insensitively) wins regardless of the path, and
otherwise the lowered path suffix is mapped through the fixed table with
python as the default. -/
theorem detectLanguage_resolution_order (ctx : Ctx) (fp : List Nat) :
    (∀ s, ctxLookup ctx sLanguage = some (.str s) →
      (strToLang (lowerStr s)).isSome = true →
      detectLanguage ctx fp = .ok (lowerStr s)) ∧
    ((ctxLookup ctx sLanguage = none ∨
      ∃ s, ctxLookup ctx sLanguage = some (.str s) ∧ strToLang (lowerStr s) = none) →
      ((lowerStr (pathSuffix fp) = extPy → detectLanguage ctx fp = .ok sPython) ∧
       (lowerStr (pathSuffix fp) = extJs → detectLanguage ctx fp = .ok sJavascript) ∧
       (lowerStr (pathSuffix fp) = extTs → detectLanguage ctx fp = .ok sTypescript) ∧
       (lowerStr (pathSuffix fp) = extJava → detectLanguage ctx fp = .ok sJava) ∧
       (lowerStr (pathSuffix fp) ≠ extPy → lowerStr (pathSuffix fp) ≠ extJs →
        lowerStr (pathSuffix fp) ≠ extTs → lowerStr (pathSuffix fp) ≠ extJava →
        detectLanguage ctx fp = .ok sPython))) := by
  constructor
  · intro s hs hsome
    unfold detectLanguage
    rw [hs]
    simp only [if_pos hsome]
  · intro hcase
    have hext : detectLanguage ctx fp = .ok (extToLang (lowerStr (pathSuffix fp))) := by
      unfold detectLanguage
      rcases hcase with hnone | ⟨s, hs, hnolang⟩
      · rw [hnone]
      · rw [hs]
        simp only [hnolang, Option.isSome_none, Bool.false_eq_true, if_false]
    refine ⟨?_, ?_, ?_, ?_, ?_⟩
    · intro h
      rw [hext, h]
      rfl
    · intro h
      rw [hext, h]
      rfl
    · intro h
      rw [hext, h]
      rfl
    · intro h
      rw [hext, h]
      rfl
    · intro h1 h2 h3 h4
      rw [hext]
      unfold extToLang
      rw [if_neg h1, if_neg h2, if_neg h3, if_neg h4]

/-- C4 witness: declared language PYTHON (uppercase) wins over a .js path;
and with no declared language an unknown extension falls back to python. -/
theorem detectLanguage_resolution_order_witness :
    detectLanguage [([108, 97, 110, 103, 117, 97, 103, 101],
      PyVal.str [80, 89, 84, 72, 79, 78])] [97, 46, 106, 115] =
      .ok (lowerStr [80, 89, 84, 72, 79, 78]) ∧
    detectLanguage [] [97, 46, 120, 121, 122] = .ok sPython := by
  constructor
  · exact (detectLanguage_resolution_order
      [([108, 97, 110, 103, 117, 97, 103, 101], PyVal.str [80, 89, 84, 72, 79, 78])]
      [97, 46, 106, 115]).1 [80, 89, 84, 72, 79, 78] rfl (by decide)
  · exact ((detectLanguage_resolution_order [] [97, 46, 120, 121, 122]).2
      (Or.inl rfl)).2.2.2.2 (by decide) (by decide) (by decide) (by decide)

/-- C5 counterexample: JavaScriptHandler.install_dependencies with an empty
dependency list still writes package.json, still spawns npm, and returns
false when npm exits nonzero. -/
theorem installDeps_empty_cx :
    (installDepsJs [] { pipR := some 0, npmR := some 1, mvnR := some 0 }).manifests ≠ [] ∧
    (installDepsJs [] { pipR := some 0, npmR := some 1, mvnR := some 0 }).procs ≠ [] ∧
    (installDepsJs [] { pipR := some 0, npmR := some 1, mvnR := some 0 }).ok = false := by
  decide

/-- C5 amended: only the python handler short-circuits on an empty
dependency list (true, no manifest, no process); the javascript and java
handlers always write their manifest and spawn the package manager, for
every dependency list including the empty one, returning the exit status;
and the typescript handler always raises NameError (its source evaluates
the undefined name true) before writing any manifest or spawning any
process. -/
theorem installDeps_empty_amended (env : InstallEnv) (deps : List (List Nat)) :
    installDepsPython [] env = { ok := true, manifests := [], procs := [] } ∧
    (installDepsJs deps env).manifests = [sPackageJson] ∧
    (installDepsJs deps env).procs = [PkgProc.npm] ∧
    installDepsTs deps env = .error sNameErrTrue ∧
    (installDepsJava deps env).manifests = [sPomXml] ∧
    (installDepsJava deps env).procs = [PkgProc.mvn] := by
  refine ⟨?_, rfl, rfl, rfl, rfl, rfl⟩
  simp [installDepsPython]

/-- C7 counterexample: a present, well-formed pytest report whose summary
counts one skipped test (total 2, passed 1, failed 0) yields a report with
tests_run different from tests_passed + tests_failed. -/
theorem parsePytest_counts_cx :
    (parsePytest (some (some ⟨some ⟨some 2, some 1, some 0⟩, some []⟩)) 0 [] []).tests_run ≠
    (parsePytest (some (some ⟨some ⟨some 2, some 1, some 0⟩, some []⟩)) 0 [] []).tests_passed +
    (parsePytest (some (some ⟨some ⟨some 2, some 1, some 0⟩, some []⟩)) 0 [] []).tests_failed := by
  decide

/-- C7 amended: the jest and maven normalizers always satisfy
tests_run = tests_passed + tests_failed; the python normalizer copies the
summary counts verbatim, so the identity holds exactly when the report file
itself satisfies total = passed + failed. -/
theorem parse_counts_identity_amended (rc : Int) (out err : List Nat)
    (jd : Option (Option PyReportData)) :
    ((parseJest rc out err).tests_run =
      (parseJest rc out err).tests_passed + (parseJest rc out err).tests_failed) ∧
    ((parseMaven rc out err).tests_run =
      (parseMaven rc out err).tests_passed + (parseMaven rc out err).tests_failed) ∧
    (∀ d s2, jd = some (some d) → d.summary = some s2 →
      s2.total.getD 0 = s2.passed.getD 0 + s2.failed.getD 0 →
      (parsePytest jd rc out err).tests_run =
        (parsePytest jd rc out err).tests_passed +
        (parsePytest jd rc out err).tests_failed) := by
  refine ⟨?_, ?_, ?_⟩
  · unfold parseJest
    by_cases h : containsSub sTestsColon out = true
    · simp only [h, if_true]
    · simp only [h, if_false]
      simp
  · unfold parseMaven
    cases h : findMaven out with
    | none => simp
    | some rfe =>
      obtain ⟨r, f, e⟩ := rfe
      simp only
      omega
  · intro d s2 hjd hsum hid
    subst hjd
    unfold parsePytest
    simp only [hsum]
    simpa using hid

/-- C7 witness: a consistent summary (total 4 = passed 3 + failed 1) gives a
python report satisfying the identity. -/
theorem parse_counts_identity_witness :
    (parsePytest (some (some ⟨some ⟨some 4, some 3, some 1⟩, some []⟩)) 0 [] []).tests_run =
    (parsePytest (some (some ⟨some ⟨some 4, some 3, some 1⟩, some []⟩)) 0 [] []).tests_passed +
    (parsePytest (some (some ⟨some ⟨some 4, some 3, some 1⟩, some []⟩)) 0 [] []).tests_failed :=
  (parse_counts_identity_amended 0 [] []
    (some (some ⟨some ⟨some 4, some 3, some 1⟩, some []⟩))).2.2
    ⟨some ⟨some 4, some 3, some 1⟩, some []⟩
    ⟨some 4, some 3, some 1⟩ rfl rfl (by decide)

/-- C8 counterexample: when the pytest runner process cannot be spawned,
run_tests returns the two-key error dictionary, which carries no
tests_run, tests_passed or tests_failed entries at all. -/
theorem runTestsPython_spawn_cx :
    runCounts (runTestsPython { proc := none, excMsg := [120], jsonFile := none }) = none := by
  decide

/-- C8 amended: when the runner process did run but the structured report
file is absent or malformed, the python normalizer returns a report whose
counts are all present and zero and whose success mirrors the return code;
when the process cannot be spawned, the returned dictionary carries only
success false and the error message, with no count keys. -/
theorem runTests_degraded_amended (env : RunEnv) :
    (env.proc = none → runTestsPython env = .spawnError env.excMsg) ∧
    (∀ rc out err, env.proc = some (rc, out, err) →
      (env.jsonFile = none ∨ env.jsonFile = some none) →
      runTestsPython env = .parsed
        { success := rc == 0, return_code := rc, stdout := out, stderr := err,
          tests_run := 0, tests_passed := 0, tests_failed := 0, failures := [] }) := by
  constructor
  · intro h
    unfold runTestsPython
    rw [h]
  · intro rc out err hp hj
    unfold runTestsPython
    rw [hp]
    rcases hj with hj | hj <;> rw [hj] <;> rfl

/-- C8 witness: a failed run (return code 1) with the report file absent
yields the zero-count failed report. -/
theorem runTests_degraded_witness :
    runTestsPython { proc := some (1, [], []), excMsg := [], jsonFile := none } = .parsed
      { success := false, return_code := 1, stdout := [], stderr := [],
        tests_run := 0, tests_passed := 0, tests_failed := 0, failures := [] } := by
  have h := (runTests_degraded_amended
    { proc := some (1, [], []), excMsg := [], jsonFile := none }).2 1 [] [] rfl (Or.inl rfl)
  simpa using h

/-- C3 counterexample: cleaning is not idempotent: on the input made of five
backticks, python, one backtick, python, the first cleaning splices a fresh
python fence out of the removed one, so a second cleaning strips further. -/
theorem cleanPython_not_idempotent_cx :
    cleanPython (cleanPython
      [96, 96, 96, 96, 96, 112, 121, 116, 104, 111, 110, 96, 112, 121, 116, 104, 111, 110]) ≠
    cleanPython
      [96, 96, 96, 96, 96, 112, 121, 116, 104, 111, 110, 96, 112, 121, 116, 104, 111, 110] := by
  decide

/-- C3 amended: every handler's clean_generated_code is idempotent on every
input whose cleaned form contains no run of three backticks; it can fail to
be idempotent only when fence removal splices a new fence marker into the
once-cleaned text. -/
theorem clean_generated_code_idem_amended (x : List Nat) :
    (containsSub bq3 (cleanPython x) = false →
      cleanPython (cleanPython x) = cleanPython x) ∧
    (containsSub bq3 (cleanJavascript x) = false →
      cleanJavascript (cleanJavascript x) = cleanJavascript x) ∧
    (containsSub bq3 (cleanTypescript x) = false →
      cleanTypescript (cleanTypescript x) = cleanTypescript x) ∧
    (containsSub bq3 (cleanJava x) = false →
      cleanJava (cleanJava x) = cleanJava x) :=
  ⟨cleanPython_idem, cleanJavascript_idem, cleanTypescript_idem, cleanJava_idem⟩

/-- C3 witness: a well-formed fenced python snippet cleans to a fence-free
text, and cleaning it again changes nothing. -/
theorem clean_generated_code_idem_witness :
    containsSub bq3 (cleanPython
      [96, 96, 96, 112, 121, 116, 104, 111, 110, 10, 120, 32, 61, 32, 49, 10,
       96, 96, 96]) = false ∧
    cleanPython (cleanPython
      [96, 96, 96, 112, 121, 116, 104, 111, 110, 10, 120, 32, 61, 32, 49, 10,
       96, 96, 96]) =
    cleanPython
      [96, 96, 96, 112, 121, 116, 104, 111, 110, 10, 120, 32, 61, 32, 49, 10,
       96, 96, 96] :=
  ⟨by decide, (clean_generated_code_idem_amended
      [96, 96, 96, 112, 121, 116, 104, 111, 110, 10, 120, 32, 61, 32, 49, 10,
       96, 96, 96]).1 (by decide)⟩

/-- C10 counterexample: the input X newline import py fence python test does
not contain the substring import pytest, yet its cleaned form does not begin
with import pytest either: removing the fence splices the substring into
the middle of the text, so the cleaner skips the injection. -/
theorem cleanPython_inject_cx :
    containsSub pytestLit
      [88, 10, 105, 109, 112, 111, 114, 116, 32, 112, 121, 96, 96, 96, 112, 121,
       116, 104, 111, 110, 32, 116, 101, 115, 116] = false ∧
    startsWith pytestLit (cleanPython
      [88, 10, 105, 109, 112, 111, 114, 116, 32, 112, 121, 96, 96, 96, 112, 121,
       116, 104, 111, 110, 32, 116, 101, 115, 116]) = false := by
  decide

/-- C10 amended: when the fence-stripped, import-repaired text still lacks
the substring import pytest, the cleaned output begins with import pytest;
when that intermediate text already contains the substring, no import line
is added and the output is just the stripped intermediate. -/
theorem cleanPython_inject_amended (x : List Nat) :
    (containsSub pytestLit (fixImports (subClose (subOpen tagPython x))) = false →
      startsWith pytestLit (cleanPython x) = true) ∧
    (containsSub pytestLit (fixImports (subClose (subOpen tagPython x))) = true →
      cleanPython x = pstrip (fixImports (subClose (subOpen tagPython x)))) := by
  constructor
  · intro h
    rw [show cleanPython x =
      pstrip (ensurePytest (fixImports (subClose (subOpen tagPython x)))) from rfl]
    unfold ensurePytest
    rw [if_neg (by rw [h]; exact Bool.false_ne_true)]
    exact startsWith_pytest_pstrip_pre _
  · intro h
    rw [show cleanPython x =
      pstrip (ensurePytest (fixImports (subClose (subOpen tagPython x)))) from rfl]
    unfold ensurePytest
    rw [if_pos h]

/-- C10 witness: on the plain input x = 1 the intermediate lacks the
substring and the cleaned output begins with import pytest. -/
theorem cleanPython_inject_witness :
    containsSub pytestLit
      (fixImports (subClose (subOpen tagPython [120, 32, 61, 32, 49]))) = false ∧
    startsWith pytestLit (cleanPython [120, 32, 61, 32, 49]) = true :=
  ⟨by decide, (cleanPython_inject_amended [120, 32, 61, 32, 49]).1 (by decide)⟩
